import Mathlib

/-!
Verification development for the LangExtract NER repository.

The Python sources are shallowly embedded:
  - src/ner_processor.py : NERProcessor (clean_text, process_document);
    the external call lx.extract is modelled as an oracle argument of type
    String → String → List ExampleData → String → ExtractOutcome (the four
    arguments the source passes: cleaned text, prompt, examples, model id),
    and process_document is instrumented with a Bool recording whether the
    oracle was consulted.  Python exceptions from lx.extract are the
    ExtractOutcome.exn constructor; a result object lacking the
    extractions attribute is ExtractOutcome.ok none.
  - src/app.py imports ArabicNERProcessor (the regex variant); its source
    file is absent from src/, so it is modelled from the spec where a claim
    needs it.
Strings are manipulated through their character lists; Python str methods
(split, join, replace, strip) are embedded as the corresponding list
functions.
-/

namespace LangExtract

/-- An extraction record produced by the external model (lx.data.Extraction):
class, text and an attribute dictionary. -/
structure Extraction where
  extraction_class : String
  extraction_text : String
  attributes : List (String × String)
deriving DecidableEq, Repr

/-- A few-shot example (lx.data.ExampleData). -/
structure ExampleData where
  text : String
  extractions : List Extraction
deriving DecidableEq, Repr

/-- Outcome of the external lx.extract call: ok some when the result object
has an extractions attribute, ok none when it lacks it, exn when the call
raises an exception with the given message. -/
inductive ExtractOutcome where
  | ok : Option (List Extraction) → ExtractOutcome
  | exn : String → ExtractOutcome
deriving DecidableEq, Repr

/-- The result mapping of process_document: an optional error entry plus the
fourteen entity-category lists, mirroring the dict literals of the source. -/
structure Entities where
  error : Option String
  names : List String
  dates : List String
  amounts : List String
  locations : List String
  organizations : List String
  phones : List String
  emails : List String
  urls : List String
  times : List String
  positions : List String
  id_numbers : List String
  work_schedules : List String
  notice_periods : List String
  governing_laws : List String
deriving DecidableEq, Repr

/-- The fourteen entity categories of the result mapping. -/
inductive Category where
  | names | dates | amounts | locations | organizations | phones | emails
  | urls | times | positions | id_numbers | work_schedules | notice_periods
  | governing_laws
deriving DecidableEq, Repr

/-- The extraction_class string that process_document routes into a category. -/
def Category.className : Category → String
  | .names => "name"
  | .dates => "date"
  | .amounts => "amount"
  | .locations => "location"
  | .organizations => "organization"
  | .phones => "phone"
  | .emails => "email"
  | .urls => "url"
  | .times => "time"
  | .positions => "position"
  | .id_numbers => "id_number"
  | .work_schedules => "work_schedule"
  | .notice_periods => "notice_period"
  | .governing_laws => "governing_law"

/-- The dict key of a category in the result mapping. -/
def Category.key : Category → String
  | .names => "names"
  | .dates => "dates"
  | .amounts => "amounts"
  | .locations => "locations"
  | .organizations => "organizations"
  | .phones => "phones"
  | .emails => "emails"
  | .urls => "urls"
  | .times => "times"
  | .positions => "positions"
  | .id_numbers => "id_numbers"
  | .work_schedules => "work_schedules"
  | .notice_periods => "notice_periods"
  | .governing_laws => "governing_laws"

/-- The list stored for a category in the result mapping. -/
def Entities.get (e : Entities) : Category → List String
  | .names => e.names
  | .dates => e.dates
  | .amounts => e.amounts
  | .locations => e.locations
  | .organizations => e.organizations
  | .phones => e.phones
  | .emails => e.emails
  | .urls => e.urls
  | .times => e.times
  | .positions => e.positions
  | .id_numbers => e.id_numbers
  | .work_schedules => e.work_schedules
  | .notice_periods => e.notice_periods
  | .governing_laws => e.governing_laws

/-- The all-empty category mapping built at the top of the conversion step
(the entities dict literal of the success path, no error key). -/
def initEntities : Entities :=
  { error := none
    names := [], dates := [], amounts := [], locations := []
    organizations := [], phones := [], emails := [], urls := [], times := []
    positions := [], id_numbers := [], work_schedules := []
    notice_periods := [], governing_laws := [] }

/-- The error-marker mapping returned on every failure branch: the given
error message plus all fourteen category lists empty. -/
def errorEntities (msg : String) : Entities :=
  { error := some msg
    names := [], dates := [], amounts := [], locations := []
    organizations := [], phones := [], emails := [], urls := [], times := []
    positions := [], id_numbers := [], work_schedules := []
    notice_periods := [], governing_laws := [] }

/-- Whitespace predicate of Python str.split and str.strip (the whitespace
characters relevant to this code base: ASCII whitespace plus the common
Unicode space separators; the three unwanted characters of clean_text are
format characters, not whitespace, matching Python). -/
def pyIsSpace (c : Char) : Bool :=
  c == ' ' || c == '\t' || c == '\n' || c == '\r' || c == '\u000b' ||
  c == '\u000c' || c == '\u001c' || c == '\u001d' || c == '\u001e' || c == '\u001f' ||
  c == '\u0085' || c == '\u00a0' || c == '\u2028' || c == '\u2029' ||
  c == '\u3000'

/-- Accumulator pass of Python str.split with no argument: splits on runs of
whitespace and drops empty pieces. -/
def pySplitAux (acc : List Char) : List Char → List (List Char)
  | [] => if acc = [] then [] else [acc.reverse]
  | c :: rest =>
    if pyIsSpace c then
      if acc = [] then pySplitAux [] rest
      else acc.reverse :: pySplitAux [] rest
    else pySplitAux (c :: acc) rest

/-- Python str.split() on a character list. -/
def pySplit (l : List Char) : List (List Char) := pySplitAux [] l

/-- Python single-space str.join on a list of words. -/
def joinSpace : List (List Char) → List Char
  | [] => []
  | [w] => w
  | w :: ws => w ++ ' ' :: joinSpace ws

/-- Python str.replace for single characters. -/
def replaceChar (old new : Char) (l : List Char) : List Char :=
  l.map fun c => if c = old then new else c

/-- Python str.strip(): remove leading and trailing whitespace. -/
def pyStrip (l : List Char) : List Char :=
  ((l.dropWhile pyIsSpace).reverse.dropWhile pyIsSpace).reverse

/-- The three unwanted characters removed by clean_text, in source order. -/
def unwantedChars : List Char := ['\uf8ff', '\ufeff', '\u200b']

/-- NERProcessor.clean_text: empty input returns empty; otherwise collapse
whitespace with split and join, replace each unwanted character by a space,
and strip. -/
def cleanText (text : String) : String :=
  if text = "" then ""
  else
    let t1 := joinSpace (pySplit text.data)
    let t2 := unwantedChars.foldl (fun t c => replaceChar c ' ' t) t1
    String.mk (pyStrip t2)

/-- The error message of the empty-input branch. -/
def noTextMsg : String := "No text to process"

/-- The error message of the missing-API-key branch. -/
def apiKeyMsg : String :=
  "LangExtract API key is required for entity extraction. Please set LANGEXTRACT_API_KEY environment variable."

/-- The error message of the exception branch. -/
def extractFailMsg (e : String) : String :=
  "LangExtract extraction failed: " ++ e

/-- Appending one matched text at the end of one category list, the effect
of the entities dict append statements of the conversion loop. -/
def Entities.push (e : Entities) (c : Category) (t : String) : Entities :=
  match c with
  | .names => { e with names := e.names ++ [t] }
  | .dates => { e with dates := e.dates ++ [t] }
  | .amounts => { e with amounts := e.amounts ++ [t] }
  | .locations => { e with locations := e.locations ++ [t] }
  | .organizations => { e with organizations := e.organizations ++ [t] }
  | .phones => { e with phones := e.phones ++ [t] }
  | .emails => { e with emails := e.emails ++ [t] }
  | .urls => { e with urls := e.urls ++ [t] }
  | .times => { e with times := e.times ++ [t] }
  | .positions => { e with positions := e.positions ++ [t] }
  | .id_numbers => { e with id_numbers := e.id_numbers ++ [t] }
  | .work_schedules => { e with work_schedules := e.work_schedules ++ [t] }
  | .notice_periods => { e with notice_periods := e.notice_periods ++ [t] }
  | .governing_laws => { e with governing_laws := e.governing_laws ++ [t] }

/-- One iteration of the conversion loop of process_document: the elif chain
routing an extraction with a recognized class and non-empty text to its
category list (appending at the end), and dropping everything else.  The
Python truthiness test `and entity_text` is the non-emptiness test. -/
def addEntity (acc : Entities) (ext : Extraction) : Entities :=
  if ext.extraction_class == "name" && ext.extraction_text != "" then acc.push .names ext.extraction_text
  else if ext.extraction_class == "date" && ext.extraction_text != "" then acc.push .dates ext.extraction_text
  else if ext.extraction_class == "amount" && ext.extraction_text != "" then acc.push .amounts ext.extraction_text
  else if ext.extraction_class == "location" && ext.extraction_text != "" then acc.push .locations ext.extraction_text
  else if ext.extraction_class == "organization" && ext.extraction_text != "" then acc.push .organizations ext.extraction_text
  else if ext.extraction_class == "phone" && ext.extraction_text != "" then acc.push .phones ext.extraction_text
  else if ext.extraction_class == "email" && ext.extraction_text != "" then acc.push .emails ext.extraction_text
  else if ext.extraction_class == "url" && ext.extraction_text != "" then acc.push .urls ext.extraction_text
  else if ext.extraction_class == "time" && ext.extraction_text != "" then acc.push .times ext.extraction_text
  else if ext.extraction_class == "position" && ext.extraction_text != "" then acc.push .positions ext.extraction_text
  else if ext.extraction_class == "id_number" && ext.extraction_text != "" then acc.push .id_numbers ext.extraction_text
  else if ext.extraction_class == "work_schedule" && ext.extraction_text != "" then acc.push .work_schedules ext.extraction_text
  else if ext.extraction_class == "notice_period" && ext.extraction_text != "" then acc.push .notice_periods ext.extraction_text
  else if ext.extraction_class == "governing_law" && ext.extraction_text != "" then acc.push .governing_laws ext.extraction_text
  else acc

/-- The conversion loop of process_document over the extractions list. -/
def convertExtractions (exts : List Extraction) : Entities :=
  exts.foldl addEntity initEntities

/-- The NERProcessor state: the fields assigned by __init__. -/
structure NERProcessor where
  api_key_available : Bool
  prompt : String
  examples : List ExampleData
deriving DecidableEq, Repr

/-- The entity extraction prompt assigned by __init__. -/
def nerPrompt : String :=
  "\n        Extract important entities from the text in order of appearance.\n        Use exact text for extractions. Do not paraphrase or overlap entities.\n        Extract: names, dates, amounts/money, locations, organizations, phone numbers, emails, URLs, times.\n        For contracts, also extract: positions/job titles, ID numbers, work schedules, notice periods, governing laws.\n        "

/-- The few-shot examples assigned by __init__. -/
def nerExamples : List ExampleData :=
  [ { text := "John Smith works at Microsoft Corporation in Seattle, earning $5000 monthly. His phone: 555-123-4567"
      extractions :=
        [ { extraction_class := "name", extraction_text := "John Smith",
            attributes := [("type", "person")] }
        , { extraction_class := "organization", extraction_text := "Microsoft Corporation",
            attributes := [("type", "company")] }
        , { extraction_class := "location", extraction_text := "Seattle",
            attributes := [("type", "city")] }
        , { extraction_class := "amount", extraction_text := "$5000",
            attributes := [("currency", "USD"), ("type", "salary")] }
        , { extraction_class := "phone", extraction_text := "555-123-4567",
            attributes := [("type", "mobile")] } ] }
  , { text := "Employment Agreement dated March 15, 2024, between ABC Corp and Sarah Johnson, ID 123456789, as Software Engineer starting April 1, 2024, salary $60,000 annually, 40 hours weekly, 30 days notice required."
      extractions :=
        [ { extraction_class := "date", extraction_text := "March 15, 2024",
            attributes := [("type", "agreement_date")] }
        , { extraction_class := "organization", extraction_text := "ABC Corp",
            attributes := [("type", "employer")] }
        , { extraction_class := "name", extraction_text := "Sarah Johnson",
            attributes := [("type", "employee")] }
        , { extraction_class := "id_number", extraction_text := "123456789",
            attributes := [("type", "employee_id")] }
        , { extraction_class := "position", extraction_text := "Software Engineer",
            attributes := [("type", "job_title")] }
        , { extraction_class := "date", extraction_text := "April 1, 2024",
            attributes := [("type", "start_date")] }
        , { extraction_class := "amount", extraction_text := "$60,000",
            attributes := [("currency", "USD"), ("type", "salary"), ("period", "annually")] }
        , { extraction_class := "work_schedule", extraction_text := "40 hours weekly",
            attributes := [("type", "working_hours")] }
        , { extraction_class := "notice_period", extraction_text := "30 days",
            attributes := [("type", "termination_notice")] } ] } ]

/-- Truthiness of Python os.getenv: false for an unset variable and for an
empty value (bool of None and of the empty string). -/
def envTruthy (v : Option String) : Bool :=
  match v with
  | none => false
  | some s => s ≠ ""

/-- NERProcessor.__init__ over an environment lookup function: records
whether LANGEXTRACT_API_KEY is available and stores prompt and examples. -/
def NERProcessor.init (getenv : String → Option String) : NERProcessor :=
  { api_key_available := envTruthy (getenv "LANGEXTRACT_API_KEY")
    prompt := nerPrompt
    examples := nerExamples }

/-- The model id passed to lx.extract. -/
def modelId : String := "gemini-2.5-flash"

/-- NERProcessor.process_document, state-passing and instrumented: the
external lx.extract call is the oracle argument (given cleaned text, prompt,
examples and model id); the result triple is the processor state after the
call, the result mapping and whether the oracle was consulted.  The branches
mirror the source: empty cleaned text and missing API key return the error
mapping without calling the oracle; an oracle exception is caught and
returns the error mapping; a result without an extractions attribute leaves
all lists empty; otherwise the conversion loop runs. -/
def NERProcessor.processDocument (p : NERProcessor)
    (extract : String → String → List ExampleData → String → ExtractOutcome)
    (text : String) : NERProcessor × Entities × Bool :=
  if cleanText text = "" then (p, errorEntities noTextMsg, false)
  else if p.api_key_available = false then (p, errorEntities apiKeyMsg, false)
  else
    match extract (cleanText text) p.prompt p.examples modelId with
    | .exn e => (p, errorEntities (extractFailMsg e), true)
    | .ok none => (p, initEntities, true)
    | .ok (some exts) => (p, convertExtractions exts, true)

/-- Values of the result dict: the error entry holds a string, the category
entries hold lists of strings. -/
inductive Val where
  | vstr : String → Val
  | vlist : List String → Val
deriving DecidableEq, Repr

/-- The fourteen category keys, in the order of the dict literals. -/
def categoryKeys : List String :=
  ["names", "dates", "amounts", "locations", "organizations", "phones",
   "emails", "urls", "times", "positions", "id_numbers", "work_schedules",
   "notice_periods", "governing_laws"]

/-- The result mapping as a key-value list, mirroring the source dict
literals: the error entry first when present, then the fourteen category
entries in literal order. -/
def toPairs (e : Entities) : List (String × Val) :=
  (match e.error with
   | some m => [("error", Val.vstr m)]
   | none => []) ++
  [("names", Val.vlist e.names), ("dates", Val.vlist e.dates),
   ("amounts", Val.vlist e.amounts), ("locations", Val.vlist e.locations),
   ("organizations", Val.vlist e.organizations), ("phones", Val.vlist e.phones),
   ("emails", Val.vlist e.emails), ("urls", Val.vlist e.urls),
   ("times", Val.vlist e.times), ("positions", Val.vlist e.positions),
   ("id_numbers", Val.vlist e.id_numbers),
   ("work_schedules", Val.vlist e.work_schedules),
   ("notice_periods", Val.vlist e.notice_periods),
   ("governing_laws", Val.vlist e.governing_laws)]

/-- Qualifying extractions for a category: recognized class and non-empty
text, the guard of the elif chain. -/
def qualifies (c : Category) (e : Extraction) : Bool :=
  e.extraction_class == c.className && e.extraction_text != ""

/-- A demo environment with no variables set. -/
def envNone : String → Option String := fun _ => none

/-- A demo environment holding an API key. -/
def envKey : String → Option String := fun _ => some "test-key"

/-- A demo oracle whose result object lacks the extractions attribute. -/
def noopExtract : String → String → List ExampleData → String → ExtractOutcome :=
  fun _ _ _ _ => ExtractOutcome.ok none

section Lemmas

lemma get_errorEntities (m : String) (c : Category) :
    (errorEntities m).get c = [] := by
  cases c <;> rfl

lemma get_initEntities (c : Category) : initEntities.get c = [] := by
  cases c <;> rfl

lemma push_error (e : Entities) (c : Category) (t : String) :
    (e.push c t).error = e.error := by
  cases c <;> rfl

lemma get_push (e : Entities) (c c2 : Category) (t : String) :
    (e.push c t).get c2 =
      if c2 = c then e.get c2 ++ [t] else e.get c2 := by
  cases c <;> cases c2 <;> simp [Entities.push, Entities.get]

lemma className_injective (c c2 : Category) :
    c.className = c2.className → c = c2 := by
  cases c <;> cases c2 <;> decide

lemma qualifies_unique (c c2 : Category) (e : Extraction)
    (h1 : qualifies c e = true) (h2 : qualifies c2 e = true) : c = c2 := by
  have g1 := (Bool.and_eq_true _ _).mp h1
  have g2 := (Bool.and_eq_true _ _).mp h2
  apply className_injective
  rw [← beq_iff_eq.mp g1.1, ← beq_iff_eq.mp g2.1]

lemma addEntity_spec (acc : Entities) (e : Extraction) :
    (∃ c : Category, qualifies c e = true ∧
      addEntity acc e = acc.push c e.extraction_text) ∨
    ((∀ c : Category, qualifies c e = false) ∧ addEntity acc e = acc) := by
  unfold addEntity
  by_cases h1 : (e.extraction_class == "name" && e.extraction_text != "") = true
  case pos => rw [if_pos h1]; exact Or.inl ⟨.names, h1, rfl⟩
  case neg =>
  rw [if_neg h1]
  by_cases h2 : (e.extraction_class == "date" && e.extraction_text != "") = true
  case pos => rw [if_pos h2]; exact Or.inl ⟨.dates, h2, rfl⟩
  case neg =>
  rw [if_neg h2]
  by_cases h3 : (e.extraction_class == "amount" && e.extraction_text != "") = true
  case pos => rw [if_pos h3]; exact Or.inl ⟨.amounts, h3, rfl⟩
  case neg =>
  rw [if_neg h3]
  by_cases h4 : (e.extraction_class == "location" && e.extraction_text != "") = true
  case pos => rw [if_pos h4]; exact Or.inl ⟨.locations, h4, rfl⟩
  case neg =>
  rw [if_neg h4]
  by_cases h5 : (e.extraction_class == "organization" && e.extraction_text != "") = true
  case pos => rw [if_pos h5]; exact Or.inl ⟨.organizations, h5, rfl⟩
  case neg =>
  rw [if_neg h5]
  by_cases h6 : (e.extraction_class == "phone" && e.extraction_text != "") = true
  case pos => rw [if_pos h6]; exact Or.inl ⟨.phones, h6, rfl⟩
  case neg =>
  rw [if_neg h6]
  by_cases h7 : (e.extraction_class == "email" && e.extraction_text != "") = true
  case pos => rw [if_pos h7]; exact Or.inl ⟨.emails, h7, rfl⟩
  case neg =>
  rw [if_neg h7]
  by_cases h8 : (e.extraction_class == "url" && e.extraction_text != "") = true
  case pos => rw [if_pos h8]; exact Or.inl ⟨.urls, h8, rfl⟩
  case neg =>
  rw [if_neg h8]
  by_cases h9 : (e.extraction_class == "time" && e.extraction_text != "") = true
  case pos => rw [if_pos h9]; exact Or.inl ⟨.times, h9, rfl⟩
  case neg =>
  rw [if_neg h9]
  by_cases h10 : (e.extraction_class == "position" && e.extraction_text != "") = true
  case pos => rw [if_pos h10]; exact Or.inl ⟨.positions, h10, rfl⟩
  case neg =>
  rw [if_neg h10]
  by_cases h11 : (e.extraction_class == "id_number" && e.extraction_text != "") = true
  case pos => rw [if_pos h11]; exact Or.inl ⟨.id_numbers, h11, rfl⟩
  case neg =>
  rw [if_neg h11]
  by_cases h12 : (e.extraction_class == "work_schedule" && e.extraction_text != "") = true
  case pos => rw [if_pos h12]; exact Or.inl ⟨.work_schedules, h12, rfl⟩
  case neg =>
  rw [if_neg h12]
  by_cases h13 : (e.extraction_class == "notice_period" && e.extraction_text != "") = true
  case pos => rw [if_pos h13]; exact Or.inl ⟨.notice_periods, h13, rfl⟩
  case neg =>
  rw [if_neg h13]
  by_cases h14 : (e.extraction_class == "governing_law" && e.extraction_text != "") = true
  case pos => rw [if_pos h14]; exact Or.inl ⟨.governing_laws, h14, rfl⟩
  case neg =>
  rw [if_neg h14]
  refine Or.inr ⟨fun c => ?_, rfl⟩
  cases c
  case names => exact Bool.eq_false_iff.mpr h1
  case dates => exact Bool.eq_false_iff.mpr h2
  case amounts => exact Bool.eq_false_iff.mpr h3
  case locations => exact Bool.eq_false_iff.mpr h4
  case organizations => exact Bool.eq_false_iff.mpr h5
  case phones => exact Bool.eq_false_iff.mpr h6
  case emails => exact Bool.eq_false_iff.mpr h7
  case urls => exact Bool.eq_false_iff.mpr h8
  case times => exact Bool.eq_false_iff.mpr h9
  case positions => exact Bool.eq_false_iff.mpr h10
  case id_numbers => exact Bool.eq_false_iff.mpr h11
  case work_schedules => exact Bool.eq_false_iff.mpr h12
  case notice_periods => exact Bool.eq_false_iff.mpr h13
  case governing_laws => exact Bool.eq_false_iff.mpr h14

lemma addEntity_error (acc : Entities) (e : Extraction) :
    (addEntity acc e).error = acc.error := by
  rcases addEntity_spec acc e with ⟨c0, -, heq⟩ | ⟨-, heq⟩
  · rw [heq, push_error]
  · rw [heq]

lemma get_addEntity (acc : Entities) (e : Extraction) (c : Category) :
    (addEntity acc e).get c =
      acc.get c ++ (if qualifies c e then [e.extraction_text] else []) := by
  rcases addEntity_spec acc e with ⟨c0, hq, heq⟩ | ⟨hall, heq⟩
  · rw [heq, get_push]
    by_cases hc : c = c0
    · subst hc
      rw [if_pos rfl, if_pos hq]
    · have hfalse : qualifies c e = false := by
        cases hqc : qualifies c e
        · rfl
        · exact absurd (qualifies_unique c c0 e hqc hq) hc
      rw [if_neg hc, hfalse]
      simp
  · rw [heq, hall c]
    simp

lemma error_foldl (exts : List Extraction) (acc : Entities) :
    (exts.foldl addEntity acc).error = acc.error := by
  induction exts generalizing acc with
  | nil => rfl
  | cons e rest ih => rw [List.foldl_cons, ih, addEntity_error]

lemma get_foldl (exts : List Extraction) (acc : Entities) (c : Category) :
    (exts.foldl addEntity acc).get c =
      acc.get c ++ (exts.filter (qualifies c)).map Extraction.extraction_text := by
  induction exts generalizing acc with
  | nil => simp
  | cons e rest ih =>
    rw [List.foldl_cons, ih, get_addEntity]
    by_cases h : qualifies c e <;> simp [h]

lemma get_convertExtractions (exts : List Extraction) (c : Category) :
    (convertExtractions exts).get c =
      (exts.filter (qualifies c)).map Extraction.extraction_text := by
  rw [convertExtractions, get_foldl, get_initEntities, List.nil_append]

lemma error_convertExtractions (exts : List Extraction) :
    (convertExtractions exts).error = none := by
  rw [convertExtractions, error_foldl]; rfl

end Lemmas

lemma processDocument_failure (p : NERProcessor)
    (extract : String → String → List ExampleData → String → ExtractOutcome)
    (text : String)
    (h : cleanText text = "" ∨ p.api_key_available = false ∨
      ∃ e, extract (cleanText text) p.prompt p.examples modelId = ExtractOutcome.exn e) :
    ((p.processDocument extract text).2.1.error).isSome = true ∧
    ∀ c : Category, (p.processDocument extract text).2.1.get c = [] := by
  by_cases h1 : cleanText text = ""
  · refine ⟨by simp [NERProcessor.processDocument, h1, errorEntities], fun c => ?_⟩
    simp [NERProcessor.processDocument, h1, get_errorEntities]
  · by_cases h2 : p.api_key_available = false
    · refine ⟨by simp [NERProcessor.processDocument, h1, h2, errorEntities], fun c => ?_⟩
      simp [NERProcessor.processDocument, h1, h2, get_errorEntities]
    · rcases h with h | h | ⟨e, he⟩
      · exact absurd h h1
      · exact absurd h h2
      · have hres : p.processDocument extract text =
            (p, errorEntities (extractFailMsg e), true) := by
          simp [NERProcessor.processDocument, h1, h2, he]
        refine ⟨?_, fun c => ?_⟩ <;> rw [hres]
        · rfl
        · exact get_errorEntities _ c

lemma processDocument_success_error (p : NERProcessor)
    (extract : String → String → List ExampleData → String → ExtractOutcome)
    (text : String)
    (h1 : ¬ cleanText text = "") (h2 : ¬ p.api_key_available = false)
    (o : Option (List Extraction))
    (hx : extract (cleanText text) p.prompt p.examples modelId = ExtractOutcome.ok o) :
    (p.processDocument extract text).2.1.error = none := by
  cases o <;>
    simp [NERProcessor.processDocument, h1, h2, hx, initEntities,
      error_convertExtractions]

/-- C1: on every input on which extraction cannot proceed (empty cleaned
text, missing API key, or an exception from the external call),
process_document returns a mapping with the error entry set and every
category list empty. -/
theorem c1_failure_error_all_empty (p : NERProcessor)
    (extract : String → String → List ExampleData → String → ExtractOutcome)
    (text : String)
    (h : cleanText text = "" ∨ p.api_key_available = false ∨
      ∃ e, extract (cleanText text) p.prompt p.examples modelId = ExtractOutcome.exn e) :
    ((p.processDocument extract text).2.1.error).isSome = true ∧
    ∀ c : Category, (p.processDocument extract text).2.1.get c = [] :=
  processDocument_failure p extract text h

/-- Witness for C1 at the concrete input of an empty text. -/
theorem c1_witness :
    (cleanText "" = "" ∨ (NERProcessor.init envKey).api_key_available = false ∨
      ∃ e, noopExtract (cleanText "") (NERProcessor.init envKey).prompt
        (NERProcessor.init envKey).examples modelId = ExtractOutcome.exn e) ∧
    ((((NERProcessor.init envKey).processDocument noopExtract "").2.1.error).isSome = true ∧
      ∀ c : Category,
        ((NERProcessor.init envKey).processDocument noopExtract "").2.1.get c = []) :=
  ⟨Or.inl rfl, c1_failure_error_all_empty (NERProcessor.init envKey) noopExtract "" (Or.inl rfl)⟩

/-- C5: with LANGEXTRACT_API_KEY unset at construction, process_document on
any non-empty text returns the error mapping with all lists empty and never
consults the external oracle; moreover, in general the oracle is consulted
only when the API key was available at construction. -/
theorem c5_no_key_no_external_call (getenv : String → Option String)
    (extract : String → String → List ExampleData → String → ExtractOutcome)
    (text : String)
    (hk : getenv "LANGEXTRACT_API_KEY" = none) (ht : text ≠ "") :
    ((((NERProcessor.init getenv).processDocument extract text).2.1.error).isSome = true ∧
      (∀ c : Category,
        ((NERProcessor.init getenv).processDocument extract text).2.1.get c = []) ∧
      ((NERProcessor.init getenv).processDocument extract text).2.2 = false) ∧
    ∀ (q : NERProcessor)
      (extract2 : String → String → List ExampleData → String → ExtractOutcome)
      (text2 : String),
      (q.processDocument extract2 text2).2.2 = true → q.api_key_available = true := by
  constructor
  · have hapi : (NERProcessor.init getenv).api_key_available = false := by
      simp [NERProcessor.init, hk, envTruthy]
    by_cases h1 : cleanText text = ""
    · exact ⟨by simp [NERProcessor.processDocument, h1, errorEntities],
        fun c => by simp [NERProcessor.processDocument, h1, get_errorEntities],
        by simp [NERProcessor.processDocument, h1]⟩
    · exact ⟨by simp [NERProcessor.processDocument, h1, hapi, errorEntities],
        fun c => by simp [NERProcessor.processDocument, h1, hapi, get_errorEntities],
        by simp [NERProcessor.processDocument, h1, hapi]⟩
  · intro q extract2 text2 hcall
    by_cases h1 : cleanText text2 = ""
    · simp [NERProcessor.processDocument, h1] at hcall
    · by_cases h2 : q.api_key_available = false
      · simp [NERProcessor.processDocument, h1, h2] at hcall
      · simpa using h2

/-- Witness for C5 at a concrete unset environment and a one-letter text. -/
theorem c5_witness :
    (envNone "LANGEXTRACT_API_KEY" = none ∧ "a" ≠ "") ∧
    (((((NERProcessor.init envNone).processDocument noopExtract "a").2.1.error).isSome = true ∧
      (∀ c : Category,
        ((NERProcessor.init envNone).processDocument noopExtract "a").2.1.get c = []) ∧
      ((NERProcessor.init envNone).processDocument noopExtract "a").2.2 = false) ∧
    ∀ (q : NERProcessor)
      (extract2 : String → String → List ExampleData → String → ExtractOutcome)
      (text2 : String),
      (q.processDocument extract2 text2).2.2 = true → q.api_key_available = true) :=
  ⟨⟨rfl, by decide⟩,
    c5_no_key_no_external_call envNone noopExtract "a" rfl (by decide)⟩

/-- C9: process_document leaves the processor state unchanged: the
api_key_available, prompt and examples fields after the call equal their
values before it. -/
theorem c9_state_unchanged (p : NERProcessor)
    (extract : String → String → List ExampleData → String → ExtractOutcome)
    (text : String) :
    (p.processDocument extract text).1.api_key_available = p.api_key_available ∧
    (p.processDocument extract text).1.prompt = p.prompt ∧
    (p.processDocument extract text).1.examples = p.examples := by
  by_cases h1 : cleanText text = ""
  · simp [NERProcessor.processDocument, h1]
  · by_cases h2 : p.api_key_available = false
    · simp [NERProcessor.processDocument, h1, h2]
    · cases hx : extract (cleanText text) p.prompt p.examples modelId with
      | ok o => cases o <;> simp [NERProcessor.processDocument, h1, h2, hx]
      | exn e => simp [NERProcessor.processDocument, h1, h2, hx]

section MappingShape

lemma keys_toPairs (r : Entities) :
    (toPairs r).map Prod.fst =
      (if (r.error).isSome = true then ["error"] else []) ++ categoryKeys := by
  cases herr : r.error <;> simp [toPairs, categoryKeys, herr]

lemma vals_toPairs (r : Entities) :
    ∀ q ∈ toPairs r, q.1 ≠ "error" → ∃ l, q.2 = Val.vlist l := by
  intro q hq hne
  cases herr : r.error with
  | none =>
    rw [toPairs, herr] at hq
    simp only [List.nil_append, List.mem_cons, List.not_mem_nil, or_false] at hq
    rcases hq with rfl | rfl | rfl | rfl | rfl | rfl | rfl | rfl | rfl | rfl
      | rfl | rfl | rfl | rfl <;>
      exact ⟨_, rfl⟩
  | some m =>
    rw [toPairs, herr] at hq
    simp only [List.cons_append, List.nil_append, List.mem_cons,
      List.not_mem_nil, or_false] at hq
    rcases hq with rfl | rfl | rfl | rfl | rfl | rfl | rfl | rfl | rfl | rfl
      | rfl | rfl | rfl | rfl | rfl
    · exact absurd rfl hne
    all_goals exact ⟨_, rfl⟩

lemma processDocument_error_iff (p : NERProcessor)
    (extract : String → String → List ExampleData → String → ExtractOutcome)
    (text : String) :
    ((p.processDocument extract text).2.1.error).isSome = true ↔
      (cleanText text = "" ∨ p.api_key_available = false ∨
        ∃ e, extract (cleanText text) p.prompt p.examples modelId = ExtractOutcome.exn e) := by
  constructor
  · intro h
    by_cases h1 : cleanText text = ""
    · exact Or.inl h1
    by_cases h2 : p.api_key_available = false
    · exact Or.inr (Or.inl h2)
    cases hx : extract (cleanText text) p.prompt p.examples modelId with
    | exn e => exact Or.inr (Or.inr ⟨e, rfl⟩)
    | ok o =>
      rw [processDocument_success_error p extract text h1 h2 o hx] at h
      exact absurd h (by simp)
  · exact fun h => (processDocument_failure p extract text h).1

end MappingShape

/-- C4: the result mapping's keys are the fixed fourteen category keys, with
the error key additionally present exactly in the failure cases, and every
entry other than the error entry holds a list of strings. -/
theorem c4_mapping_shape (p : NERProcessor)
    (extract : String → String → List ExampleData → String → ExtractOutcome)
    (text : String) :
    ((toPairs (p.processDocument extract text).2.1).map Prod.fst =
      (if (((p.processDocument extract text).2.1.error).isSome = true)
        then ["error"] else []) ++ categoryKeys) ∧
    (((p.processDocument extract text).2.1.error).isSome = true ↔
      (cleanText text = "" ∨ p.api_key_available = false ∨
        ∃ e, extract (cleanText text) p.prompt p.examples modelId = ExtractOutcome.exn e)) ∧
    (∀ q ∈ toPairs (p.processDocument extract text).2.1,
      q.1 ≠ "error" → ∃ l, q.2 = Val.vlist l) :=
  ⟨keys_toPairs _, processDocument_error_iff p extract text, vals_toPairs _⟩

/-- Witness for C4 at a concrete processor, oracle and text. -/
theorem c4_witness :
    ((toPairs ((NERProcessor.init envKey).processDocument noopExtract "a").2.1).map Prod.fst =
      (if ((((NERProcessor.init envKey).processDocument noopExtract "a").2.1.error).isSome = true)
        then ["error"] else []) ++ categoryKeys) ∧
    ((((NERProcessor.init envKey).processDocument noopExtract "a").2.1.error).isSome = true ↔
      (cleanText "a" = "" ∨ (NERProcessor.init envKey).api_key_available = false ∨
        ∃ e, noopExtract (cleanText "a") (NERProcessor.init envKey).prompt
          (NERProcessor.init envKey).examples modelId = ExtractOutcome.exn e)) ∧
    (∀ q ∈ toPairs ((NERProcessor.init envKey).processDocument noopExtract "a").2.1,
      q.1 ≠ "error" → ∃ l, q.2 = Val.vlist l) :=
  c4_mapping_shape (NERProcessor.init envKey) noopExtract "a"

section SuccessPath

lemma processDocument_ok_some (p : NERProcessor)
    (extract : String → String → List ExampleData → String → ExtractOutcome)
    (text : String) (exts : List Extraction)
    (h1 : ¬ cleanText text = "") (h2 : ¬ p.api_key_available = false)
    (hx : extract (cleanText text) p.prompt p.examples modelId =
      ExtractOutcome.ok (some exts)) :
    p.processDocument extract text = (p, convertExtractions exts, true) := by
  simp [NERProcessor.processDocument, h1, h2, hx]

lemma processDocument_get_filter (p : NERProcessor)
    (extract : String → String → List ExampleData → String → ExtractOutcome)
    (text : String) (exts : List Extraction)
    (h1 : cleanText text ≠ "") (h2 : p.api_key_available = true)
    (hx : extract (cleanText text) p.prompt p.examples modelId =
      ExtractOutcome.ok (some exts)) (c : Category) :
    (p.processDocument extract text).2.1.get c =
      (exts.filter (qualifies c)).map Extraction.extraction_text := by
  rw [processDocument_ok_some p extract text exts h1 (by simp [h2]) hx]
  exact get_convertExtractions exts c

end SuccessPath

/-- C10: when the external model returns an extractions list, every
extraction with an unrecognized class or empty text is dropped and each
remaining extraction's text lands in exactly the category list matching its
class: each category list is the texts of the extractions qualifying for
that category, in order. -/
theorem c10_conversion_filters_and_routes (p : NERProcessor)
    (extract : String → String → List ExampleData → String → ExtractOutcome)
    (text : String) (exts : List Extraction)
    (h1 : cleanText text ≠ "") (h2 : p.api_key_available = true)
    (hx : extract (cleanText text) p.prompt p.examples modelId =
      ExtractOutcome.ok (some exts)) :
    (∀ c : Category, (p.processDocument extract text).2.1.get c =
      (exts.filter (qualifies c)).map Extraction.extraction_text) ∧
    (∀ ext ∈ exts, ∀ c c2 : Category,
      qualifies c ext = true → qualifies c2 ext = true → c = c2) :=
  ⟨processDocument_get_filter p extract text exts h1 h2 hx,
    fun ext _ c c2 hc hc2 => qualifies_unique c c2 ext hc hc2⟩

/-- An oracle returning one extraction of each of two classes plus one with
an unknown class and one with empty text, used as a concrete success-path
input. -/
def demoExts : List Extraction :=
  [ { extraction_class := "name", extraction_text := "John", attributes := [] }
  , { extraction_class := "unknown_class", extraction_text := "x", attributes := [] }
  , { extraction_class := "date", extraction_text := "March 15", attributes := [] }
  , { extraction_class := "name", extraction_text := "", attributes := [] } ]

/-- A demo oracle returning demoExts. -/
def demoExtract : String → String → List ExampleData → String → ExtractOutcome :=
  fun _ _ _ _ => ExtractOutcome.ok (some demoExts)

/-- Witness for C10 at a concrete oracle result with an unknown class and an
empty text among the extractions. -/
theorem c10_witness :
    (cleanText "a" ≠ "" ∧ (NERProcessor.init envKey).api_key_available = true ∧
      demoExtract (cleanText "a") (NERProcessor.init envKey).prompt
        (NERProcessor.init envKey).examples modelId = ExtractOutcome.ok (some demoExts)) ∧
    ((∀ c : Category,
      ((NERProcessor.init envKey).processDocument demoExtract "a").2.1.get c =
        (demoExts.filter (qualifies c)).map Extraction.extraction_text) ∧
    (∀ ext ∈ demoExts, ∀ c c2 : Category,
      qualifies c ext = true → qualifies c2 ext = true → c = c2)) :=
  ⟨⟨by decide, rfl, rfl⟩,
    c10_conversion_filters_and_routes (NERProcessor.init envKey) demoExtract "a"
      demoExts (by decide) rfl rfl⟩

/-- A demo oracle returning the same name extraction twice. -/
def dupExtract : String → String → List ExampleData → String → ExtractOutcome :=
  fun _ _ _ _ => ExtractOutcome.ok (some
    [ { extraction_class := "name", extraction_text := "John", attributes := [] }
    , { extraction_class := "name", extraction_text := "John", attributes := [] } ])

/-- Counterexample to C2: with the external model returning the same name
twice, the names list of process_document holds two equal entries, so
duplicate exact strings are not collapsed. -/
theorem c2_counterexample :
    ¬ (((NERProcessor.init envKey).processDocument dupExtract "Alice").2.1.get
        Category.names).Nodup := by
  decide

/-- C2 amended: process_document does not collapse duplicates: each
qualifying extraction contributes exactly one entry to its category list, so
the list length equals the number of qualifying extractions. -/
theorem c2_amended_no_dedup (p : NERProcessor)
    (extract : String → String → List ExampleData → String → ExtractOutcome)
    (text : String) (exts : List Extraction)
    (h1 : cleanText text ≠ "") (h2 : p.api_key_available = true)
    (hx : extract (cleanText text) p.prompt p.examples modelId =
      ExtractOutcome.ok (some exts)) :
    ∀ c : Category, ((p.processDocument extract text).2.1.get c).length =
      (exts.filter (qualifies c)).length := by
  intro c
  rw [processDocument_get_filter p extract text exts h1 h2 hx c,
    List.length_map]

/-- Witness for the amended C2 at the duplicate-name oracle. -/
theorem c2_amended_witness :
    (cleanText "Alice" ≠ "" ∧ (NERProcessor.init envKey).api_key_available = true) ∧
    ∀ c : Category,
      (((NERProcessor.init envKey).processDocument dupExtract "Alice").2.1.get c).length =
        (([ { extraction_class := "name", extraction_text := "John", attributes := [] }
          , { extraction_class := "name", extraction_text := "John", attributes := [] } ]
            : List Extraction).filter (qualifies c)).length :=
  ⟨⟨by decide, rfl⟩,
    c2_amended_no_dedup (NERProcessor.init envKey) dupExtract "Alice" _
      (by decide) rfl rfl⟩

/-- Whether the first list is an initial segment of the second. -/
def leadsList {α : Type} [BEq α] : List α → List α → Bool
  | [], _ => true
  | _ :: _, [] => false
  | a :: as, b :: bs => a == b && leadsList as bs

/-- Index of the first occurrence of pat as a substring of text, none when
pat does not occur. -/
def firstOccIdx (pat text : String) : Option Nat :=
  (List.range (text.data.length + 1)).find?
    (fun i => leadsList pat.data (text.data.drop i))

/-- First-occurrence position used for ordering comparisons, with strings
that do not occur placed after all others. -/
def occKey (pat text : String) : Nat :=
  match firstOccIdx pat text with
  | some i => i
  | none => text.data.length + 1

/-- Whether a list of matched strings is ordered by the position of the
first occurrence of each string in the source text. -/
def orderedByFirstOcc (text : String) : List String → Bool
  | [] => true
  | [_] => true
  | a :: b :: rest =>
    decide (occKey a text ≤ occKey b text) && orderedByFirstOcc text (b :: rest)

/-- A demo oracle returning two names in the reverse of their order of
occurrence in the text "Alice Bob". -/
def oooExtract : String → String → List ExampleData → String → ExtractOutcome :=
  fun _ _ _ _ => ExtractOutcome.ok (some
    [ { extraction_class := "name", extraction_text := "Bob", attributes := [] }
    , { extraction_class := "name", extraction_text := "Alice", attributes := [] } ])

/-- Counterexample to C3: when the external model returns "Bob" before
"Alice" on the source text "Alice Bob", the names list is not ordered by
first occurrence in the source text, so process_document does not enforce
source-text order. -/
theorem c3_counterexample :
    ¬ (∀ (p : NERProcessor)
        (extract : String → String → List ExampleData → String → ExtractOutcome)
        (text : String) (c : Category),
        orderedByFirstOcc text ((p.processDocument extract text).2.1.get c) = true) := by
  intro h
  have hc := h (NERProcessor.init envKey) oooExtract "Alice Bob" Category.names
  revert hc
  decide

/-- C3 amended: the entries of each category list appear in the order in
which the corresponding extractions occur in the external model's result:
each category list is a subsequence of the model's extraction texts in the
model's order; process_document imposes no source-text-position ordering of
its own. -/
theorem c3_amended_model_order (p : NERProcessor)
    (extract : String → String → List ExampleData → String → ExtractOutcome)
    (text : String) (exts : List Extraction)
    (h1 : cleanText text ≠ "") (h2 : p.api_key_available = true)
    (hx : extract (cleanText text) p.prompt p.examples modelId =
      ExtractOutcome.ok (some exts)) :
    ∀ c : Category,
      List.Sublist ((p.processDocument extract text).2.1.get c)
        (exts.map Extraction.extraction_text) := by
  intro c
  rw [processDocument_get_filter p extract text exts h1 h2 hx c]
  exact List.Sublist.map Extraction.extraction_text (List.filter_sublist exts)

/-- Witness for the amended C3 at the out-of-order oracle. -/
theorem c3_amended_witness :
    (cleanText "Alice Bob" ≠ "" ∧
      (NERProcessor.init envKey).api_key_available = true) ∧
    ∀ c : Category,
      List.Sublist
        (((NERProcessor.init envKey).processDocument oooExtract "Alice Bob").2.1.get c)
        (([ { extraction_class := "name", extraction_text := "Bob", attributes := [] }
          , { extraction_class := "name", extraction_text := "Alice", attributes := [] } ]
            : List Extraction).map Extraction.extraction_text) :=
  ⟨⟨by decide, rfl⟩,
    c3_amended_model_order (NERProcessor.init envKey) oooExtract "Alice Bob" _
      (by decide) rfl rfl⟩

section CleanText

lemma head_dropWhile_false (p : Char → Bool) (l : List Char) :
    ∀ x, (l.dropWhile p).head? = some x → p x = false := by
  induction l with
  | nil => intro x hx; simp [List.dropWhile] at hx
  | cons a tl ih =>
    intro x hx
    rw [List.dropWhile_cons] at hx
    by_cases hpa : p a = true
    · rw [if_pos hpa] at hx
      exact ih x hx
    · rw [if_neg hpa] at hx
      simp only [List.head?_cons, Option.some.injEq] at hx
      subst hx
      exact Bool.eq_false_iff.mpr hpa

lemma getLast_dropWhile (p : Char → Bool) (l : List Char)
    (h : l.dropWhile p ≠ []) : (l.dropWhile p).getLast? = l.getLast? := by
  induction l with
  | nil => simp [List.dropWhile] at h
  | cons a tl ih =>
    by_cases hpa : p a = true
    · rw [List.dropWhile_cons, if_pos hpa] at h ⊢
      rw [ih h]
      cases tl with
      | nil => simp [List.dropWhile] at h
      | cons b tl2 => rw [List.getLast?_cons_cons]
    · rw [List.dropWhile_cons, if_neg hpa]

lemma mem_pyStrip (l : List Char) (ch : Char) (h : ch ∈ pyStrip l) :
    ch ∈ l := by
  unfold pyStrip at h
  have h1 := List.mem_reverse.mp h
  have h2 := (List.dropWhile_sublist pyIsSpace).mem h1
  have h3 := List.mem_reverse.mp h2
  exact (List.dropWhile_sublist pyIsSpace).mem h3

lemma mem_replaceChar (old new ch : Char) (l : List Char)
    (h : ch ∈ replaceChar old new l) : ch = new ∨ (ch ∈ l ∧ ch ≠ old) := by
  unfold replaceChar at h
  rcases List.mem_map.mp h with ⟨a, ha, hfa⟩
  by_cases hao : a = old
  · subst hao
    rw [if_pos rfl] at hfa
    exact Or.inl hfa.symm
  · rw [if_neg hao] at hfa
    subst hfa
    exact Or.inr ⟨ha, hao⟩

lemma not_mem_replaceChar_self (u : Char) (hu : u ≠ ' ') (l : List Char) :
    u ∉ replaceChar u ' ' l := by
  intro h
  rcases mem_replaceChar u ' ' u l h with h1 | ⟨-, h1⟩
  · exact hu h1
  · exact h1 rfl

lemma not_mem_replaceChar_other (u v : Char) (hu : u ≠ ' ') (l : List Char)
    (h : u ∉ l) : u ∉ replaceChar v ' ' l := by
  intro hm
  rcases mem_replaceChar v ' ' u l hm with h1 | ⟨h1, -⟩
  · exact hu h1
  · exact h h1

lemma pySplitAux_nil_of_all (l : List Char)
    (h : l.all pyIsSpace = true) : pySplitAux [] l = [] := by
  induction l with
  | nil => rfl
  | cons c rest ih =>
    rw [List.all_cons, Bool.and_eq_true] at h
    rw [pySplitAux, if_pos h.1, if_pos rfl]
    exact ih h.2

end CleanText

/-- C8: clean_text never leaves one of the three unwanted characters in its
result, the result has no leading and no trailing whitespace, and a
whitespace-only (in particular empty) input yields the empty string. -/
theorem c8_cleanText_clean (s : String) :
    ('\uf8ff' ∉ (cleanText s).data ∧ '\ufeff' ∉ (cleanText s).data ∧
      '\u200b' ∉ (cleanText s).data) ∧
    (∀ ch : Char, (cleanText s).data.head? = some ch → pyIsSpace ch = false) ∧
    (∀ ch : Char, (cleanText s).data.getLast? = some ch → pyIsSpace ch = false) ∧
    (s.data.all pyIsSpace = true → cleanText s = "") := by
  by_cases hs : s = ""
  · subst hs
    refine ⟨⟨by simp [cleanText], by simp [cleanText], by simp [cleanText]⟩,
      ?_, ?_, fun _ => rfl⟩ <;>
      intro ch hch <;> simp [cleanText] at hch
  · have hdata : (cleanText s).data =
        pyStrip (replaceChar '\u200b' ' ' (replaceChar '\ufeff' ' '
          (replaceChar '\uf8ff' ' ' (joinSpace (pySplit s.data))))) := by
      rw [cleanText, if_neg hs]
      rfl
    refine ⟨?_, ?_, ?_, ?_⟩
    · rw [hdata]
      set t1 := joinSpace (pySplit s.data) with ht1
      have ha : '\uf8ff' ∉ replaceChar '\uf8ff' ' ' t1 :=
        not_mem_replaceChar_self _ (by decide) t1
      have hb : '\uf8ff' ∉ replaceChar '\ufeff' ' ' (replaceChar '\uf8ff' ' ' t1) :=
        not_mem_replaceChar_other _ _ (by decide) _ ha

      have hc : '\uf8ff' ∉ replaceChar '\u200b' ' ' (replaceChar '\ufeff' ' '
          (replaceChar '\uf8ff' ' ' t1)) :=
        not_mem_replaceChar_other _ _ (by decide) _ hb
      have hd : '\ufeff' ∉ replaceChar '\ufeff' ' ' (replaceChar '\uf8ff' ' ' t1) :=
        not_mem_replaceChar_self _ (by decide) _
      have he : '\ufeff' ∉ replaceChar '\u200b' ' ' (replaceChar '\ufeff' ' '
          (replaceChar '\uf8ff' ' ' t1)) :=
        not_mem_replaceChar_other _ _ (by decide) _ hd
      have hf : '\u200b' ∉ replaceChar '\u200b' ' ' (replaceChar '\ufeff' ' '
          (replaceChar '\uf8ff' ' ' t1)) :=
        not_mem_replaceChar_self _ (by decide) _
      exact ⟨fun hm => hc (mem_pyStrip _ _ hm),
        fun hm => he (mem_pyStrip _ _ hm),
        fun hm => hf (mem_pyStrip _ _ hm)⟩
    · intro ch hch
      rw [hdata] at hch
      unfold pyStrip at hch
      rw [List.head?_reverse] at hch
      have hB : ¬ ((replaceChar '\u200b' ' ' (replaceChar '\ufeff' ' '
          (replaceChar '\uf8ff' ' ' (joinSpace (pySplit s.data))))).dropWhile
            pyIsSpace).reverse.dropWhile pyIsSpace = [] := by
        intro hnil
        rw [hnil] at hch
        simp at hch
      rw [getLast_dropWhile pyIsSpace _ hB, List.getLast?_reverse] at hch
      exact head_dropWhile_false pyIsSpace _ ch hch
    · intro ch hch
      rw [hdata] at hch
      unfold pyStrip at hch
      rw [List.getLast?_reverse] at hch
      exact head_dropWhile_false pyIsSpace _ ch hch
    · intro hall
      rw [cleanText, if_neg hs, pySplit, pySplitAux_nil_of_all s.data hall]
      rfl

/-- Witness for C8 at a concrete padded input and at a whitespace-only
input. -/
theorem c8_witness :
    ((cleanText "  x ").data.head? = some 'x' ∧ pyIsSpace 'x' = false) ∧
    ((cleanText "  x ").data.getLast? = some 'x' ∧ pyIsSpace 'x' = false) ∧
    (" \t ".data.all pyIsSpace = true ∧ cleanText " \t " = "") :=
  ⟨⟨by decide, (c8_cleanText_clean "  x ").2.1 'x' (by decide)⟩,
    ⟨by decide, (c8_cleanText_clean "  x ").2.2.1 'x' (by decide)⟩,
    ⟨by decide, (c8_cleanText_clean " \t ").2.2.2 (by decide)⟩⟩

/-- Modelled from the spec: the source file of ArabicNERProcessor (the
regex variant imported by src/app.py) is absent from src/; the honorific
markers of its name rule ("Mr.", "Dr.", "Party One:", etc.) are modelled as
token sequences. -/
def honorificMarkers : List (List String) :=
  [["Mr."], ["Dr."], ["Mrs."], ["Party", "One:"], ["Party", "Two:"],
   ["السيد"], ["السيدة"], ["الدكتور"]]

/-- Modelled from the spec: one scan of the token list for the regex rules
of the form marker-then-capture: at each position where one of the markers
starts, the tokens following the marker are captured, capped at cap. -/
def scanAfter (markers : List (List String)) (cap : Nat) :
    List String → List (List String)
  | [] => []
  | tok :: rest =>
    match markers.find? (fun m => leadsList m (tok :: rest)) with
    | some m => ((tok :: rest).drop m.length).take cap :: scanAfter markers cap rest
    | none => scanAfter markers cap rest

/-- First-occurrence de-duplication: keep an element only when it has not
been seen before, preserving scan order. -/
def dedupFirstAux {α : Type} [DecidableEq α] (seen : List α) :
    List α → List α
  | [] => []
  | x :: xs =>
    if x ∈ seen then dedupFirstAux seen xs
    else x :: dedupFirstAux (x :: seen) xs

/-- First-occurrence de-duplication of a whole list. -/
def dedupFirst {α : Type} [DecidableEq α] (l : List α) : List α :=
  dedupFirstAux [] l

/-- Modelled from the spec: the name rule of the regex variant: text
following honorific markers, capped at 4 words, first occurrence kept,
order preserved. -/
def extractNames (markers : List (List String)) (toks : List String) :
    List (List String) :=
  dedupFirst (scanAfter markers 4 toks)

/-- Modelled from the spec: duration markers ("for a period of"). -/
def durationMarkers : List (List String) := [["for", "a", "period", "of"], ["لمدة"]]

/-- Modelled from the spec: place markers ("in", "at city", "address:"). -/
def locationMarkers : List (List String) := [["in"], ["at"], ["address:"], ["في"]]

/-- Modelled from the spec: phone label markers ("phone:", "mobile:"). -/
def phoneMarkers : List (List String) := [["phone:"], ["mobile:"], ["هاتف:"]]

/-- Modelled from the spec: the fixed contract-type vocabulary. -/
def contractVocab : List String := ["عقد", "اتفاقية", "contract", "agreement"]

/-- Modelled from the spec: a numeric date token: three slash-separated
nonempty digit groups (D/M/YYYY or YYYY/M/D). -/
def isDateTok (s : String) : Bool :=
  let parts := s.data.splitOn '/'
  parts.length == 3 &&
    parts.all (fun p => !p.isEmpty && p.all Char.isDigit)

/-- Modelled from the spec: a numeric amount token: digits with optional
comma or period separators. -/
def isAmountTok (s : String) : Bool :=
  !s.isEmpty &&
    s.data.all (fun c => c.isDigit || c == ',' || c == '.') &&
    s.data.any Char.isDigit

/-- Modelled from the spec: currency words following an amount. -/
def currencyWords : List String := ["ريال", "دولار", "دينار", "درهم", "جنيه"]

/-- Modelled from the spec: amount capture: a numeric token directly
followed by a currency word. -/
def scanAmounts : List String → List (List String)
  | [] => []
  | [_] => []
  | a :: b :: rest =>
    if isAmountTok a && currencyWords.contains b then
      [a, b] :: scanAmounts (b :: rest)
    else scanAmounts (b :: rest)

/-- Modelled from the spec: an international-looking digit group: at least
seven characters, all digits, plus signs or dashes. -/
def isPhoneTok (s : String) : Bool :=
  decide (7 ≤ s.data.length) &&
    s.data.all (fun c => c.isDigit || c == '+' || c == '-')

/-- The category mapping of the regex variant, with the fields read by
src/app.py (the word-count, text-length and language statistics fields are
display-only and outside the embedding). -/
structure RegexEntities where
  contract_type : Option String
  names : List (List String)
  dates : List (List String)
  durations : List (List String)
  amounts : List (List String)
  locations : List (List String)
  phone_numbers : List (List String)
deriving DecidableEq, Repr

/-- Modelled from the spec: ArabicNERProcessor.process_document, the
variant using only local regular-expression pattern matching; its source
file is absent from src/ (src/app.py only imports and calls it).  It is
given the same external-extraction oracle signature as the LLM variant and
the same call-instrumentation Bool, and computes every category by local
token matching, never consulting the oracle. -/
def ArabicNERProcessor.processDocument
    (extract : String → String → List ExampleData → String → ExtractOutcome)
    (toks : List String) : RegexEntities × Bool :=
  ({ contract_type := contractVocab.find? (fun v => toks.contains v)
     names := extractNames honorificMarkers toks
     dates := dedupFirst
       (((toks.filter isDateTok).map (fun t => [t])) ++
         scanAfter [["dated"], ["بتاريخ"]] 1 toks)
     durations := dedupFirst (scanAfter durationMarkers 2 toks)
     amounts := dedupFirst (scanAmounts toks)
     locations := dedupFirst (scanAfter locationMarkers 3 toks)
     phone_numbers := dedupFirst
       (((toks.filter isPhoneTok).map (fun t => [t])) ++
         scanAfter phoneMarkers 1 toks) }, false)

/-- C6: the regex variant produces its whole category mapping without any
call to the external model: the call flag is false for every input and the
result does not depend on the oracle at all. -/
theorem c6_regex_variant_no_api_call (toks : List String)
    (e1 e2 : String → String → List ExampleData → String → ExtractOutcome) :
    (ArabicNERProcessor.processDocument e1 toks).2 = false ∧
    ArabicNERProcessor.processDocument e1 toks =
      ArabicNERProcessor.processDocument e2 toks :=
  ⟨rfl, rfl⟩

section NameRule

lemma mem_scanAfter (markers : List (List String)) (cap : Nat)
    (toks : List String) (nm : List String)
    (h : nm ∈ scanAfter markers cap toks) :
    ∃ i m, m ∈ markers ∧ leadsList m (toks.drop i) = true ∧
      nm = ((toks.drop i).drop m.length).take cap := by
  induction toks with
  | nil => simp [scanAfter] at h
  | cons tok rest ih =>
    rw [scanAfter] at h
    cases hfind : markers.find? (fun m => leadsList m (tok :: rest)) with
    | some m =>
      rw [hfind] at h
      rcases List.mem_cons.mp h with rfl | hmem
      · refine ⟨0, m, List.mem_of_find?_eq_some hfind, ?_, rfl⟩
        simpa using List.find?_some hfind
      · rcases ih hmem with ⟨i, m2, hm2, hlead, hnm⟩
        exact ⟨i + 1, m2, hm2, hlead, hnm⟩
    | none =>
      rw [hfind] at h
      rcases ih h with ⟨i, m2, hm2, hlead, hnm⟩
      exact ⟨i + 1, m2, hm2, hlead, hnm⟩

lemma dedupFirstAux_sublist {α : Type} [DecidableEq α] (l : List α) :
    ∀ seen : List α, List.Sublist (dedupFirstAux seen l) l := by
  induction l with
  | nil => intro seen; simp [dedupFirstAux]
  | cons x xs ih =>
    intro seen
    rw [dedupFirstAux]
    by_cases hx : x ∈ seen
    · rw [if_pos hx]
      exact (ih seen).cons x
    · rw [if_neg hx]
      exact (ih (x :: seen)).cons₂ x

lemma dedupFirstAux_nodup {α : Type} [DecidableEq α] (l : List α) :
    ∀ seen : List α, (dedupFirstAux seen l).Nodup ∧
      ∀ x ∈ dedupFirstAux seen l, x ∉ seen := by
  induction l with
  | nil => intro seen; simp [dedupFirstAux]
  | cons x xs ih =>
    intro seen
    rw [dedupFirstAux]
    by_cases hx : x ∈ seen
    · rw [if_pos hx]
      exact ih seen
    · rw [if_neg hx]
      constructor
      · refine List.nodup_cons.mpr ⟨?_, (ih (x :: seen)).1⟩
        intro hmem
        exact (ih (x :: seen)).2 x hmem (List.mem_cons_self x seen)
      · intro y hy
        rcases List.mem_cons.mp hy with rfl | hy2
        · exact hx
        · intro hys
          exact (ih (x :: seen)).2 y hy2 (List.mem_cons_of_mem x hys)

end NameRule

/-- C7: every entry of the regex variant's name category follows an
honorific marker in the token sequence and holds at most four tokens, the
first occurrence of each name is kept (no duplicates remain) and scan order
is preserved (the list is a subsequence of the raw marker scan). -/
theorem c7_name_rule (toks : List String) :
    (∀ nm ∈ extractNames honorificMarkers toks,
      nm.length ≤ 4 ∧
      ∃ i m, m ∈ honorificMarkers ∧ leadsList m (toks.drop i) = true ∧
        nm = ((toks.drop i).drop m.length).take 4) ∧
    (extractNames honorificMarkers toks).Nodup ∧
    List.Sublist (extractNames honorificMarkers toks)
      (scanAfter honorificMarkers 4 toks) := by
  refine ⟨fun nm hnm => ?_, (dedupFirstAux_nodup _ []).1,
    dedupFirstAux_sublist _ []⟩
  have hraw : nm ∈ scanAfter honorificMarkers 4 toks :=
    (dedupFirstAux_sublist _ []).mem hnm
  rcases mem_scanAfter honorificMarkers 4 toks nm hraw with ⟨i, m, hm, hlead, hnm2⟩
  subst hnm2
  exact ⟨List.length_take_le 4 _, i, m, hm, hlead, rfl⟩

/-- Witness for C7 at a concrete token sequence with a repeated honorific
capture. -/
theorem c7_witness :
    (["Ali"] ∈ extractNames honorificMarkers ["Mr.", "Ali"]) ∧
    (["Ali"].length ≤ 4 ∧
      ∃ i m, m ∈ honorificMarkers ∧
        leadsList m ((["Mr.", "Ali"] : List String).drop i) = true ∧
        ["Ali"] = (((["Mr.", "Ali"] : List String).drop i).drop m.length).take 4) ∧
    (extractNames honorificMarkers ["Mr.", "Ali"]).Nodup ∧
    List.Sublist (extractNames honorificMarkers ["Mr.", "Ali"])
      (scanAfter honorificMarkers 4 ["Mr.", "Ali"]) :=
  ⟨by decide,
    (c7_name_rule ["Mr.", "Ali"]).1 ["Ali"] (by decide),
    (c7_name_rule ["Mr.", "Ali"]).2.1,
    (c7_name_rule ["Mr.", "Ali"]).2.2⟩

end LangExtract
